import Mathlib

/-!
Verification of the Matrix Metrics systemic-risk engine
(`src/core/systemic_risk.py`, `src/core/network_utils.py`).

The engine holds a compromise vector `C : Fin n → ℝ` and an adjacency
matrix `E : Matrix (Fin n) (Fin n) ℝ` and derives scalar/vector/matrix
risk metrics from them.  Numpy's real arithmetic is modelled over `ℝ`;
`np.sqrt` is `Real.sqrt` (with a separate `Option`-valued model,
`np_sqrt`, tracking the NaN a negative argument produces).  The numpy
expressions are embedded entrywise, exactly as the vectorized code
evaluates them.
-/

open Matrix BigOperators

namespace SystemicRiskCalculator

/-- The quadratic form `Cᵗ · E · C` computed by `calculate_S`
(`c_col.T @ self.E @ c_col` in the source), written entrywise. -/
def quadForm {n : ℕ} (C : Fin n → ℝ) (E : Matrix (Fin n) (Fin n) ℝ) : ℝ :=
  ∑ i, C i * ∑ j, E i j * C j

/-- Method `calculate_S`: the primary systemic risk score `S = sqrt(Cᵗ E C)`. -/
noncomputable def calculate_S {n : ℕ} (C : Fin n → ℝ)
    (E : Matrix (Fin n) (Fin n) ℝ) : ℝ :=
  Real.sqrt (quadForm C E)

/-- Helper `_get_gradient`: the gradient of `S`.  The source returns the zero
vector when `self.S == 0`, and `(self.E + self.E.T) @ self.C / (2 * self.S)`
otherwise; the matrix-vector product is written entrywise. -/
noncomputable def get_gradient {n : ℕ} (C : Fin n → ℝ)
    (E : Matrix (Fin n) (Fin n) ℝ) : Fin n → ℝ :=
  if calculate_S C E = 0 then fun _ => 0
  else fun i => (∑ j, (E i j + E j i) * C j) / (2 * calculate_S C E)

/-- Method `calculate_risk_decomposition`: `D = C * gradient` (elementwise). -/
noncomputable def calculate_risk_decomposition {n : ℕ} (C : Fin n → ℝ)
    (E : Matrix (Fin n) (Fin n) ℝ) : Fin n → ℝ :=
  fun i => C i * get_gradient C E i

/-- Method `calculate_risk_increment`: returns the gradient unchanged. -/
noncomputable def calculate_risk_increment {n : ℕ} (C : Fin n → ℝ)
    (E : Matrix (Fin n) (Fin n) ℝ) : Fin n → ℝ :=
  get_gradient C E

/-- Method `calculate_node_degrees`: `degrees = np.sum(self.E, axis=1)`, the row
sums of the adjacency matrix.  The method is part of an instance holding
both `C` and `E`; its body reads only `E`. -/
def calculate_node_degrees {n : ℕ} (_C : Fin n → ℝ)
    (E : Matrix (Fin n) (Fin n) ℝ) : Fin n → ℝ :=
  fun i => ∑ j, E i j

/-- Method `calculate_fragility`: `R = mean(d²) / mean(d)` over the row-sum
degree vector, with `R = 0` when the mean degree is `0`.  `np.mean` over
a length-`n` array is the sum divided by `n`. -/
noncomputable def calculate_fragility {n : ℕ} (C : Fin n → ℝ)
    (E : Matrix (Fin n) (Fin n) ℝ) : ℝ :=
  let degrees := calculate_node_degrees C E
  let mean_degree := (∑ i, degrees i) / n
  if mean_degree = 0 then 0
  else ((∑ i, degrees i ^ 2) / n) / mean_degree

/-- Method `calculate_normalized_score`: `S̄ = S / ‖C‖₂` with baseline
`np.linalg.norm(self.C)`, and `S̄ = 0` when the baseline is `0`. -/
noncomputable def calculate_normalized_score {n : ℕ} (C : Fin n → ℝ)
    (E : Matrix (Fin n) (Fin n) ℝ) : ℝ :=
  let s_baseline := Real.sqrt (∑ i, C i ^ 2)
  if s_baseline = 0 then 0
  else calculate_S C E / s_baseline

/-- Method `calculate_cross_risk`: the zero matrix when `S == 0`; otherwise
`Δ = diag(g) + H @ diag(C)` with `A = (E + Eᵗ)/2` and
`H = (A − outer(g,g)) / S`, the numpy elementwise operations written
entrywise and `@` as the matrix product. -/
noncomputable def calculate_cross_risk {n : ℕ} (C : Fin n → ℝ)
    (E : Matrix (Fin n) (Fin n) ℝ) : Matrix (Fin n) (Fin n) ℝ :=
  if calculate_S C E = 0 then 0
  else
    Matrix.diagonal (get_gradient C E) +
      (Matrix.of fun i j =>
        ((E i j + E j i) / 2 -
            get_gradient C E i * get_gradient C E j) / calculate_S C E) *
        Matrix.diagonal C

end SystemicRiskCalculator

namespace SystemicRiskCalculator

/-- The quadratic form is symmetric in the sense that transposing `E`
does not change it. -/
theorem quadForm_transpose {n : ℕ} (C : Fin n → ℝ)
    (E : Matrix (Fin n) (Fin n) ℝ) :
    ∑ i, C i * ∑ j, E j i * C j = quadForm C E := by
  unfold quadForm
  simp_rw [Finset.mul_sum]
  rw [Finset.sum_comm]
  exact Finset.sum_congr rfl fun i _ => Finset.sum_congr rfl fun j _ => by ring

/-- Summing `C i * ((E + Eᵗ) C)_i` doubles the quadratic form. -/
theorem quadForm_eq_double {n : ℕ} (C : Fin n → ℝ)
    (E : Matrix (Fin n) (Fin n) ℝ) :
    ∑ i, C i * ∑ j, (E i j + E j i) * C j = 2 * quadForm C E := by
  have expand : ∀ i : Fin n, C i * ∑ j, (E i j + E j i) * C j
      = C i * ∑ j, E i j * C j + C i * ∑ j, E j i * C j := by
    intro i
    simp_rw [add_mul, Finset.sum_add_distrib, mul_add]
  rw [Finset.sum_congr rfl fun i _ => expand i, Finset.sum_add_distrib, two_mul]
  congr 1
  exact quadForm_transpose C E

/-- Claim C1: for every valid input pair `(C, E)` with `S > 0`, the
per-institution decomposition `D_i = C_i * G_i` returned by
`calculate_risk_decomposition` sums to the primary score:
`∑ i, D_i = S`. -/
theorem claim_C1_decomposition_sums_to_S {n : ℕ} (C : Fin n → ℝ)
    (E : Matrix (Fin n) (Fin n) ℝ) (h : 0 < calculate_S C E) :
    ∑ i, calculate_risk_decomposition C E i = calculate_S C E := by
  have hS : calculate_S C E ≠ 0 := ne_of_gt h
  have hq : 0 < quadForm C E := Real.sqrt_pos.mp h
  have hsq : calculate_S C E ^ 2 = quadForm C E := Real.sq_sqrt hq.le
  unfold calculate_risk_decomposition
  rw [funext fun i => congrArg (C i * ·) (congrFun (if_neg hS) i)]
  calc
    ∑ i, C i * ((∑ j, (E i j + E j i) * C j) / (2 * calculate_S C E))
        = (∑ i, C i * ∑ j, (E i j + E j i) * C j) / (2 * calculate_S C E) := by
          simp_rw [← mul_div_assoc]
          exact (Finset.sum_div _ _ _).symm
    _ = 2 * quadForm C E / (2 * calculate_S C E) := by rw [quadForm_eq_double]
    _ = quadForm C E / calculate_S C E := by
          rw [mul_div_mul_left _ _ (two_ne_zero (α := ℝ))]
    _ = calculate_S C E := by
          rw [← hsq, pow_two, mul_div_assoc, div_self hS, mul_one]

/-- A one-institution instance with a single unit compromise score and a
unit self-exposure, used to instantiate hypotheses concretely. -/
def cOne : Fin 1 → ℝ := fun _ => 1

/-- The 1×1 all-ones adjacency matrix companion to `cOne`. -/
def eOne : Matrix (Fin 1) (Fin 1) ℝ := fun _ _ => 1

theorem quadForm_cOne : quadForm cOne eOne = 1 := by
  simp [quadForm, cOne, eOne]

theorem calculate_S_cOne : calculate_S cOne eOne = 1 := by
  rw [calculate_S, quadForm_cOne, Real.sqrt_one]

/-- Witness for C1 at the concrete instance `(cOne, eOne)`, where `S = 1`. -/
theorem claim_C1_witness :
    0 < calculate_S cOne eOne ∧
      ∑ i, calculate_risk_decomposition cOne eOne i = calculate_S cOne eOne := by
  have h : 0 < calculate_S cOne eOne := by
    rw [calculate_S_cOne]; exact one_pos
  exact ⟨h, claim_C1_decomposition_sums_to_S cOne eOne h⟩

/-- Claim C2: for every valid input pair `(C, E)`, if `S` is nonzero the
gradient — also exposed as the risk-increment vector — equals
`(E + Eᵗ) C / (2S)`; if `S = 0` the gradient is the zero vector. -/
theorem claim_C2_gradient_formula {n : ℕ} (C : Fin n → ℝ)
    (E : Matrix (Fin n) (Fin n) ℝ) :
    (calculate_S C E ≠ 0 →
      calculate_risk_increment C E
        = (2 * calculate_S C E)⁻¹ • ((E + Eᵀ) *ᵥ C)) ∧
    (calculate_S C E = 0 → calculate_risk_increment C E = fun _ => 0) := by
  constructor
  · intro h
    unfold calculate_risk_increment get_gradient
    rw [if_neg h]
    funext i
    rw [Pi.smul_apply, smul_eq_mul, ← div_eq_inv_mul]
    congr 1
  · intro h
    unfold calculate_risk_increment get_gradient
    rw [if_pos h]

/-- Witness for C2: at `(cOne, eOne)` the score is `1 ≠ 0` and the
risk-increment vector takes the matrix form. -/
theorem claim_C2_witness :
    calculate_risk_increment cOne eOne
      = (2 * calculate_S cOne eOne)⁻¹ • ((eOne + eOneᵀ) *ᵥ cOne) :=
  (claim_C2_gradient_formula cOne eOne).1
    (by rw [calculate_S_cOne]; exact one_ne_zero)

/-- Claim C3: for every valid `(C, E)` with `S` nonzero,
`calculate_cross_risk` returns `diag(G) + H * diag(C)` with
`A = (E + Eᵗ)/2` and `H = (A − G Gᵗ)/S`; when `S = 0` it returns the
zero matrix. -/
theorem claim_C3_cross_risk_formula {n : ℕ} (C : Fin n → ℝ)
    (E : Matrix (Fin n) (Fin n) ℝ) :
    (calculate_S C E ≠ 0 →
      calculate_cross_risk C E
        = Matrix.diagonal (get_gradient C E) +
            ((calculate_S C E)⁻¹ •
              ((2 : ℝ)⁻¹ • (E + Eᵀ) -
                Matrix.vecMulVec (get_gradient C E) (get_gradient C E))) *
              Matrix.diagonal C) ∧
    (calculate_S C E = 0 → calculate_cross_risk C E = 0) := by
  constructor
  · intro h
    have hH : (Matrix.of fun i j =>
        ((E i j + E j i) / 2 -
            get_gradient C E i * get_gradient C E j) / calculate_S C E)
        = (calculate_S C E)⁻¹ •
            ((2 : ℝ)⁻¹ • (E + Eᵀ) -
              Matrix.vecMulVec (get_gradient C E) (get_gradient C E)) := by
      ext i j
      simp only [Matrix.of_apply, Matrix.smul_apply, Matrix.sub_apply,
        Matrix.add_apply, Matrix.transpose_apply, Matrix.vecMulVec_apply,
        smul_eq_mul]
      ring
    unfold calculate_cross_risk
    rw [if_neg h, hH]
  · intro h
    unfold calculate_cross_risk
    rw [if_pos h]

/-- Witness for C3: at `(cOne, eOne)` the score is `1 ≠ 0` and the
cross-risk matrix takes the `diag(G) + H diag(C)` form. -/
theorem claim_C3_witness :
    calculate_cross_risk cOne eOne
      = Matrix.diagonal (get_gradient cOne eOne) +
          ((calculate_S cOne eOne)⁻¹ •
            ((2 : ℝ)⁻¹ • (eOne + eOneᵀ) -
              Matrix.vecMulVec (get_gradient cOne eOne)
                (get_gradient cOne eOne))) *
            Matrix.diagonal cOne :=
  (claim_C3_cross_risk_formula cOne eOne).1
    (by rw [calculate_S_cOne]; exact one_ne_zero)

/-- The construction-time failure modes of the engine, named after the
spec's error taxonomy.  `NotSquare` is the `ValueError` "Adjacency matrix
must be a 2D square matrix."; `ShapeMismatch` is the `ValueError`
"Dimensions of compromise vector and adjacency matrix do not match." -/
inductive ValidationError
  | NotSquare
  | ShapeMismatch
deriving DecidableEq

/-- Method `validate_inputs` on the shapes of the inputs: `n = len(C)` and
`(r, c)` the shape of `E`.  The source checks squareness of `E` first
and only then compares `n` with `E.shape[0]`; the `ndim` checks always
pass for arrays built from a pandas Series and DataFrame. -/
def validate_inputs (n r c : ℕ) : Except ValidationError Unit :=
  if r ≠ c then Except.error ValidationError.NotSquare
  else if n ≠ r then Except.error ValidationError.ShapeMismatch
  else Except.ok ()

/-- Counterexample to claim C4: on `len(C) = 1` and a 2×3 matrix the
length mismatch is reported as `NotSquare`, not `ShapeMismatch` (the
squareness check runs first), and the empty `n = 0` input is accepted
even though the claim requires `n ≥ 1`. -/
theorem claim_C4_counterexample :
    (validate_inputs 1 2 3 = Except.error ValidationError.NotSquare ∧
      validate_inputs 1 2 3 ≠ Except.error ValidationError.ShapeMismatch) ∧
    validate_inputs 0 0 0 = Except.ok () := by
  refine ⟨⟨rfl, ?_⟩, rfl⟩
  intro h
  simp [validate_inputs] at h

/-- Claim C4 (amended): construction fails with `NotSquare` whenever `E`
has unequal row and column counts (even if `len(C)` also differs from the
row count), fails with `ShapeMismatch` when `E` is square but
`len(C) ≠ n`, and succeeds exactly when `len(C) = E.rows = E.cols = n`
for some `n ≥ 0` (the empty input is accepted). -/
theorem claim_C4_amended (n r c : ℕ) :
    (r ≠ c → validate_inputs n r c = Except.error ValidationError.NotSquare) ∧
    (r = c → n ≠ r →
      validate_inputs n r c = Except.error ValidationError.ShapeMismatch) ∧
    (validate_inputs n r c = Except.ok () ↔ n = r ∧ r = c) := by
  unfold validate_inputs
  refine ⟨fun h => if_pos h, fun h1 h2 => ?_, ?_⟩
  · rw [if_neg (by omega), if_pos h2]
  · constructor
    · intro h
      by_cases hrc : r = c
      · by_cases hnr : n = r
        · exact ⟨hnr, hrc⟩
        · rw [if_neg (by omega), if_pos hnr] at h
          exact absurd h (by simp)
      · rw [if_pos hrc] at h
        exact absurd h (by simp)
    · rintro ⟨h1, h2⟩
      rw [if_neg (by omega), if_neg (by omega)]

/-- Witness for C4 (amended) at concrete shapes: a 2×3 matrix is rejected
as `NotSquare`, a square 2×2 matrix with a length-1 vector is rejected as
`ShapeMismatch`, and matching shapes are accepted. -/
theorem claim_C4_witness :
    validate_inputs 2 2 3 = Except.error ValidationError.NotSquare ∧
    validate_inputs 1 2 2 = Except.error ValidationError.ShapeMismatch ∧
    validate_inputs 2 2 2 = Except.ok () :=
  ⟨(claim_C4_amended 2 2 3).1 (by decide),
    (claim_C4_amended 1 2 2).2.1 rfl (by decide),
    ((claim_C4_amended 2 2 2).2.2).mpr ⟨rfl, rfl⟩⟩

/-- The zero compromise vector on one institution. -/
def cZero : Fin 1 → ℝ := fun _ => 0

/-- Counterexample to claim C5: with the zero compromise vector and the
identity adjacency matrix, `calculate_normalized_score` returns the
`‖C‖₂ = 0` policy value `0`, not `1`. -/
theorem claim_C5_counterexample :
    calculate_normalized_score cZero (1 : Matrix (Fin 1) (Fin 1) ℝ) ≠ 1 := by
  have h0 : calculate_normalized_score cZero (1 : Matrix (Fin 1) (Fin 1) ℝ)
      = 0 := by
    show (if Real.sqrt (∑ i, cZero i ^ 2) = 0 then (0 : ℝ)
      else calculate_S cZero 1 / Real.sqrt (∑ i, cZero i ^ 2)) = 0
    rw [if_pos (by simp [cZero])]
  rw [h0]
  exact zero_ne_one

/-- Claim C5 (amended): for every nonzero compromise vector `C`, if the
adjacency matrix is the identity then `calculate_normalized_score`
returns exactly `1`; for the zero vector the `‖C‖₂ = 0` policy yields
`0` instead. -/
theorem claim_C5_amended {n : ℕ} (C : Fin n → ℝ) (h : C ≠ 0) :
    calculate_normalized_score C 1 = 1 := by
  obtain ⟨i0, hi0⟩ := Function.ne_iff.mp h
  have hsum : 0 < ∑ i, C i ^ 2 :=
    Finset.sum_pos' (fun i _ => sq_nonneg (C i))
      ⟨i0, Finset.mem_univ i0, pow_two_pos_of_ne_zero hi0⟩
  have hquad : quadForm C 1 = ∑ i, C i ^ 2 := by
    unfold quadForm
    refine Finset.sum_congr rfl fun i _ => ?_
    rw [pow_two]
    congr 1
    simp [Matrix.one_apply]
  have hb : Real.sqrt (∑ i, C i ^ 2) ≠ 0 :=
    ne_of_gt (Real.sqrt_pos.mpr hsum)
  show (if Real.sqrt (∑ i, C i ^ 2) = 0 then (0 : ℝ)
    else calculate_S C 1 / Real.sqrt (∑ i, C i ^ 2)) = 1
  rw [if_neg hb, calculate_S, hquad, div_self hb]

/-- Witness for C5 (amended): the unit one-institution vector is nonzero
and attains normalized score `1` on the identity network. -/
theorem claim_C5_witness : calculate_normalized_score cOne 1 = 1 :=
  claim_C5_amended cOne (by
    intro hc
    have h0 := congrFun hc 0
    simp [cOne] at h0)

/-- Claim C6: for every adjacency matrix whose row sums (node degrees,
diagonal included) all equal one common value `d`, `calculate_fragility`
returns exactly `d`; the `d = 0` case goes through the
`mean degree = 0 → R = 0` policy, which still returns `d`. -/
theorem claim_C6_uniform_degree_fragility {n : ℕ} (C : Fin n → ℝ)
    (E : Matrix (Fin n) (Fin n) ℝ) (d : ℝ) (hn : 0 < n)
    (hd : ∀ i, ∑ j, E i j = d) :
    calculate_fragility C E = d := by
  have hn' : (n : ℝ) ≠ 0 := Nat.cast_ne_zero.mpr hn.ne'
  have h1 : ∑ i, calculate_node_degrees C E i = (n : ℝ) * d := by
    simp only [calculate_node_degrees]
    rw [Finset.sum_congr rfl fun i _ => hd i, Finset.sum_const,
      Finset.card_univ, Fintype.card_fin, nsmul_eq_mul]
  have h2 : ∑ i, calculate_node_degrees C E i ^ 2 = (n : ℝ) * d ^ 2 := by
    simp only [calculate_node_degrees]
    rw [Finset.sum_congr rfl fun i _ => by rw [hd i], Finset.sum_const,
      Finset.card_univ, Fintype.card_fin, nsmul_eq_mul]
  show (if (∑ i, calculate_node_degrees C E i) / (n : ℝ) = 0 then (0 : ℝ)
    else ((∑ i, calculate_node_degrees C E i ^ 2) / (n : ℝ)) /
      ((∑ i, calculate_node_degrees C E i) / (n : ℝ))) = d
  rw [h1, h2, mul_div_cancel_left₀ d hn', mul_div_cancel_left₀ (d ^ 2) hn']
  rcases eq_or_ne d 0 with hd0 | hd0
  · rw [if_pos hd0, hd0]
  · rw [if_neg hd0, pow_two, mul_div_assoc, div_self hd0, mul_one]

/-- A 2×2 adjacency matrix whose two row sums both equal `3`. -/
def eUniform : Matrix (Fin 2) (Fin 2) ℝ := Matrix.of ![![1, 2], ![2, 1]]

/-- Witness for C6: on `eUniform` every node degree is `3` and the
fragility evaluates to `3`. -/
theorem claim_C6_witness : calculate_fragility (fun _ => 0) eUniform = 3 :=
  claim_C6_uniform_degree_fragility _ eUniform 3 (by norm_num) (by
    intro i
    fin_cases i <;>
      simp [eUniform, Fin.sum_univ_two] <;> norm_num)

/-- Model of `np.sqrt` with numpy's domain behavior: a negative argument produces
NaN, modelled as `none`; a non-negative argument produces the real
square root. -/
noncomputable def np_sqrt (x : ℝ) : Option ℝ :=
  if x < 0 then none else some (Real.sqrt x)

/-- The error wrappers of the try/except inside `calculate_S`: a caught
`np.linalg.LinAlgError` is re-raised as a `ValueError` and any other
exception as a `RuntimeError`. -/
inductive CalcError
  | LinAlgValueError
  | UnexpectedRuntimeError
deriving DecidableEq

/-- Method `calculate_S` with the NaN-tracking square root.  The only exception
sources inside the `try` block are the numpy matrix products and
`np.sqrt`; on validated shapes these are total pure arithmetic, so
neither `except` branch can fire and the method always returns normally
with the (possibly NaN) root of the quadratic form. -/
noncomputable def calculate_S_ieee {n : ℕ} (C : Fin n → ℝ)
    (E : Matrix (Fin n) (Fin n) ℝ) : Except CalcError (Option ℝ) :=
  Except.ok (np_sqrt (quadForm C E))

/-- Claim C8: for every input pair whose quadratic form `Cᵗ E C` is
negative, `calculate_S` returns a not-a-number result (modelled as
`none`) rather than raising: no `NumericDomain` error is produced. -/
theorem claim_C8_negative_quadform_nan {n : ℕ} (C : Fin n → ℝ)
    (E : Matrix (Fin n) (Fin n) ℝ) (h : quadForm C E < 0) :
    calculate_S_ieee C E = Except.ok none := by
  unfold calculate_S_ieee np_sqrt
  rw [if_pos h]

/-- A 1×1 adjacency matrix with a negative entry, giving `Cᵗ E C < 0`. -/
def eNeg : Matrix (Fin 1) (Fin 1) ℝ := Matrix.of ![![-1]]

/-- Witness for C8: with `C = [1]` and `E = [[-1]]` the quadratic form is
`-1 < 0` and `calculate_S` returns NaN without raising. -/
theorem claim_C8_witness : calculate_S_ieee cOne eNeg = Except.ok none :=
  claim_C8_negative_quadform_nan cOne eNeg (by
    show quadForm cOne eNeg < 0
    simp [quadForm, cOne, eNeg])

end SystemicRiskCalculator

namespace NetworkUtils

/-- The centrality failure mode of the spec's error taxonomy.  The source
wrapper in `network_utils.py` converts networkx's
`PowerIterationFailedConvergence` into a raised `RuntimeError`. -/
inductive CentralityError
  | ConvergenceFailure
deriving DecidableEq

/-- Modelled from the spec: the convergence tolerance `1e-6` of §4.2
(`tol=1.0e-6` at the call site in `network_utils.py`). -/
def tol (α : Type) [LinearOrderedField α] : α := 1 / 1000000

/-- Modelled from the spec: the change between successive power-method
iterates, measured by the sum of absolute entry differences. -/
def l1change {n : ℕ} {α : Type} [LinearOrderedField α]
    (x y : Fin n → α) : α :=
  ∑ i, |y i - x i|

/-- Modelled from the spec: renormalization of an iterate to a fixed
convention (§4.2 leaves the normalization constant immaterial; the
1-norm is used so the model stays executable over `ℚ`). -/
def normalize1 {n : ℕ} {α : Type} [LinearOrderedField α]
    (x : Fin n → α) : Fin n → α :=
  fun i => x i / (∑ j, |x j|)

/-- Modelled from the spec: one power-method step — apply the weighted
adjacency operator and renormalize. -/
def power_step {n : ℕ} {α : Type} [LinearOrderedField α]
    (A : Matrix (Fin n) (Fin n) α) (x : Fin n → α) : Fin n → α :=
  normalize1 (A *ᵥ x)

/-- Modelled from the spec: the bounded power iteration of §4.2, absent
from `src/` because the repository delegates it to
`networkx.eigenvector_centrality`.  It repeats `power_step` until the
change between successive iterates falls below the tolerance, and
reports `ConvergenceFailure` once the iteration budget is exhausted. -/
def power_iterate {n : ℕ} {α : Type} [LinearOrderedField α]
    (A : Matrix (Fin n) (Fin n) α) :
    (Fin n → α) → ℕ → Except CentralityError (Fin n → α)
  | _, 0 => Except.error CentralityError.ConvergenceFailure
  | x, fuel + 1 =>
      if l1change x (power_step A x) < tol α then
        Except.ok (power_step A x)
      else power_iterate A (power_step A x) fuel

/-- Modelled from the spec: the uniform starting vector of §4.2. -/
def uniform (n : ℕ) (α : Type) [LinearOrderedField α] : Fin n → α :=
  fun _ => 1 / (n : α)

/-- Wrapper `calculate_eigenvector_centrality`: the wrapper runs the power
iteration with the source's budget `max_iter=1000` and surfaces a
convergence failure to the caller instead of returning a vector. -/
def calculate_eigenvector_centrality {n : ℕ} {α : Type}
    [LinearOrderedField α] (A : Matrix (Fin n) (Fin n) α) :
    Except CentralityError (Fin n → α) :=
  power_iterate A (uniform n α) 1000

/-- Method `calculate_criticality`: `C * centrality` elementwise; a centrality
failure propagates to the criticality computation. -/
def calculate_criticality {n : ℕ} {α : Type} [LinearOrderedField α]
    (C : Fin n → α) (A : Matrix (Fin n) (Fin n) α) :
    Except CentralityError (Fin n → α) :=
  Except.map (fun cent i => C i * cent i) (calculate_eigenvector_centrality A)

/-- A 2×2 network on which the power iteration oscillates forever with
period two and never meets the tolerance. -/
def eOsc : Matrix (Fin 2) (Fin 2) ℚ := Matrix.of ![![0, 2], ![1, 0]]

/-- First state of the period-two oscillation (also the uniform start). -/
def vA : Fin 2 → ℚ := ![1 / 2, 1 / 2]

/-- Second state of the period-two oscillation on `eOsc`. -/
def vB : Fin 2 → ℚ := ![2 / 3, 1 / 3]

theorem uniform_two : uniform 2 ℚ = vA := by
  funext i
  fin_cases i <;> norm_num [uniform, vA]

theorem step_vA : power_step eOsc vA = vB := by
  funext i
  fin_cases i <;>
    norm_num [power_step, normalize1, Matrix.mulVec, Matrix.dotProduct,
      Fin.sum_univ_two, eOsc, vA, vB, abs_of_nonneg]

theorem step_vB : power_step eOsc vB = vA := by
  funext i
  fin_cases i <;>
    norm_num [power_step, normalize1, Matrix.mulVec, Matrix.dotProduct,
      Fin.sum_univ_two, eOsc, vA, vB, abs_of_nonneg]

theorem change_AB : l1change vA vB = 1 / 3 := by
  have h1 : |(2 / 3 : ℚ) - 1 / 2| = 1 / 6 := by
    rw [show (2 / 3 : ℚ) - 1 / 2 = 1 / 6 by norm_num]
    exact abs_of_pos (by norm_num)
  have h2 : |(1 / 3 : ℚ) - 1 / 2| = 1 / 6 := by
    rw [show (1 / 3 : ℚ) - 1 / 2 = -(1 / 6) by norm_num, abs_neg]
    exact abs_of_pos (by norm_num)
  unfold l1change
  rw [Fin.sum_univ_two]
  simp only [vA, vB, Matrix.cons_val_zero, Matrix.cons_val_one,
    Matrix.head_cons]
  rw [h1, h2]
  norm_num

theorem change_BA : l1change vB vA = 1 / 3 := by
  rw [show l1change vB vA = l1change vA vB from
    Finset.sum_congr rfl fun i _ => abs_sub_comm _ _]
  exact change_AB

theorem change_vA : ¬ l1change vA (power_step eOsc vA) < tol ℚ := by
  rw [step_vA, change_AB]
  norm_num [tol]

theorem change_vB : ¬ l1change vB (power_step eOsc vB) < tol ℚ := by
  rw [step_vB, change_BA]
  norm_num [tol]

/-- On `eOsc` the power iteration exhausts any iteration budget without
converging, from either oscillation state. -/
theorem osc_error (k : ℕ) :
    power_iterate eOsc vA k
      = Except.error CentralityError.ConvergenceFailure ∧
    power_iterate eOsc vB k
      = Except.error CentralityError.ConvergenceFailure := by
  induction k with
  | zero => exact ⟨rfl, rfl⟩
  | succ k ih =>
    constructor
    · rw [power_iterate, if_neg change_vA, step_vA]
      exact ih.2
    · rw [power_iterate, if_neg change_vB, step_vB]
      exact ih.1

/-- A successful power iteration only ever returns a vector that met the
convergence tolerance against its predecessor. -/
theorem power_iterate_ok {n : ℕ} {α : Type} [LinearOrderedField α]
    (A : Matrix (Fin n) (Fin n) α) (x y : Fin n → α) (fuel : ℕ)
    (h : power_iterate A x fuel = Except.ok y) :
    ∃ x0, y = power_step A x0 ∧ l1change x0 y < tol α := by
  induction fuel generalizing x with
  | zero => exact absurd h (by simp [power_iterate])
  | succ fuel ih =>
    rw [power_iterate] at h
    by_cases hc : l1change x (power_step A x) < tol α
    · rw [if_pos hc] at h
      injection h with h2
      exact ⟨x, h2.symm, h2 ▸ hc⟩
    · rw [if_neg hc] at h
      exact ih _ h

/-- The real-valued copy of `eOsc`, for the centrality-independent
engine outputs. -/
def eOscR : Matrix (Fin 2) (Fin 2) ℝ := Matrix.of ![![0, 2], ![1, 0]]

theorem fragility_eOscR :
    SystemicRiskCalculator.calculate_fragility (fun _ => (0 : ℝ)) eOscR
      = 5 / 3 := by
  unfold SystemicRiskCalculator.calculate_fragility
    SystemicRiskCalculator.calculate_node_degrees
  norm_num [Fin.sum_univ_two, eOscR]

theorem degrees_eOscR :
    SystemicRiskCalculator.calculate_node_degrees (fun _ => (0 : ℝ)) eOscR
      = ![2, 1] := by
  funext i
  fin_cases i <;>
    simp [SystemicRiskCalculator.calculate_node_degrees, eOscR,
      Fin.sum_univ_two]

/-- Claim C7: a power iteration that exhausts its `1000`-iteration budget
without reaching the `1e-6` tolerance surfaces `ConvergenceFailure` to
the caller and never returns an approximate vector (any returned vector
met the tolerance); on the oscillating network `eOsc` the budget is in
fact exhausted, criticality fails with the same error, while fragility
and node degrees remain independently retrievable. -/
theorem claim_C7_convergence_failure {m : ℕ}
    (A : Matrix (Fin m) (Fin m) ℚ) (x y : Fin m → ℚ) (fuel : ℕ)
    (h : power_iterate A x fuel = Except.ok y) :
    (∃ x0, y = power_step A x0 ∧ l1change x0 y < tol ℚ) ∧
    calculate_eigenvector_centrality eOsc
      = Except.error CentralityError.ConvergenceFailure ∧
    calculate_criticality (fun _ => (1 : ℚ)) eOsc
      = Except.error CentralityError.ConvergenceFailure ∧
    SystemicRiskCalculator.calculate_fragility (fun _ => (0 : ℝ)) eOscR
      = 5 / 3 ∧
    SystemicRiskCalculator.calculate_node_degrees (fun _ => (0 : ℝ)) eOscR
      = ![2, 1] := by
  have hcent : calculate_eigenvector_centrality eOsc
      = Except.error CentralityError.ConvergenceFailure := by
    unfold calculate_eigenvector_centrality
    rw [uniform_two]
    exact (osc_error 1000).1
  refine ⟨power_iterate_ok A x y fuel h, hcent, ?_,
    fragility_eOscR, degrees_eOscR⟩
  unfold calculate_criticality
  rw [hcent]
  rfl

/-- A 1×1 network on which the power iteration converges immediately. -/
def aConv : Matrix (Fin 1) (Fin 1) ℚ := Matrix.of ![![1]]

/-- The fixed point of the power iteration on `aConv`. -/
def xConv : Fin 1 → ℚ := ![1]

/-- Witness for C7: the hypothesis holds concretely on `aConv`, where one
iteration converges to `xConv`. -/
theorem claim_C7_witness :
    ((∃ x0, xConv = power_step aConv x0 ∧
        l1change x0 xConv < tol ℚ) ∧
      calculate_eigenvector_centrality eOsc
        = Except.error CentralityError.ConvergenceFailure ∧
      calculate_criticality (fun _ => (1 : ℚ)) eOsc
        = Except.error CentralityError.ConvergenceFailure ∧
      SystemicRiskCalculator.calculate_fragility (fun _ => (0 : ℝ)) eOscR
        = 5 / 3 ∧
      SystemicRiskCalculator.calculate_node_degrees (fun _ => (0 : ℝ)) eOscR
        = ![2, 1]) :=
  claim_C7_convergence_failure aConv xConv xConv 1 (by
    have hstep : power_step aConv xConv = xConv := by
      funext i
      fin_cases i
      norm_num [power_step, normalize1, Matrix.mulVec, Matrix.dotProduct,
        Fin.sum_univ_one, aConv, xConv]
    have hch : l1change xConv (power_step aConv xConv) < tol ℚ := by
      rw [hstep]
      norm_num [l1change, Fin.sum_univ_one, tol]
    rw [power_iterate, if_pos hch, hstep])

end NetworkUtils

namespace SystemicRiskCalculator

/-- The mutable state of one engine instance: the immutable inputs plus
the three cache fields created in `__init__` (`_s_score`, `_centrality`,
`_gradient_s`).  No other derived value has a cache field. -/
structure EngineState (n : ℕ) where
  C : Fin n → ℝ
  E : Matrix (Fin n) (Fin n) ℝ
  s_score : Option ℝ
  centrality : Option (Fin n → ℝ)
  gradient_s : Option (Fin n → ℝ)

/-- Constructor `__init__` after validation: all three caches start empty. -/
def mkEngine {n : ℕ} (C : Fin n → ℝ) (E : Matrix (Fin n) (Fin n) ℝ) :
    EngineState n :=
  ⟨C, E, none, none, none⟩

/-- Markers for the compute bodies that run during a method call; a call
answered from a cache emits no marker. -/
inductive Comp
  | sScore
  | centrality
  | gradient
  | fragility
  | nodeDegrees
deriving DecidableEq

/-- The `S` property: return the cached score when present, otherwise
run `calculate_S`, store the result and return it. -/
noncomputable def S_prop {n : ℕ} (s : EngineState n) :
    ℝ × EngineState n × List Comp :=
  match s.s_score with
  | some v => (v, s, [])
  | none =>
      (calculate_S s.C s.E,
        { s with s_score := some (calculate_S s.C s.E) }, [Comp.sScore])

/-- Helper `_get_gradient` as a method: return the cached gradient when
present, otherwise read `self.S` (through its caching accessor), compute
the gradient, store and return it. -/
noncomputable def get_gradient_m {n : ℕ} (s : EngineState n) :
    (Fin n → ℝ) × EngineState n × List Comp :=
  match s.gradient_s with
  | some g => (g, s, [])
  | none =>
      let r := S_prop s
      let g : Fin n → ℝ :=
        if r.1 = 0 then fun _ => 0
        else fun i =>
          (∑ j, (r.2.1.E i j + r.2.1.E j i) * r.2.1.C j) / (2 * r.1)
      (g, { r.2.1 with gradient_s := some g }, r.2.2 ++ [Comp.gradient])

/-- Method `calculate_centrality`: return the cached vector when present,
otherwise run the centrality computation; on success the result is
stored, on convergence failure the exception propagates and the cache
stays empty. -/
noncomputable def calculate_centrality_m {n : ℕ} (s : EngineState n) :
    Except NetworkUtils.CentralityError
      ((Fin n → ℝ) × EngineState n × List Comp) :=
  match s.centrality with
  | some v => Except.ok (v, s, [])
  | none =>
      match NetworkUtils.calculate_eigenvector_centrality s.E with
      | Except.ok v =>
          Except.ok (v, { s with centrality := some v }, [Comp.centrality])
      | Except.error e => Except.error e

/-- Method `calculate_fragility` as a method: no cache field exists for it, so
every call runs the computation on the stored inputs. -/
noncomputable def calculate_fragility_m {n : ℕ} (s : EngineState n) :
    ℝ × EngineState n × List Comp :=
  (calculate_fragility s.C s.E, s, [Comp.fragility])

/-- Method `calculate_node_degrees` as a method: likewise uncached. -/
def calculate_node_degrees_m {n : ℕ} (s : EngineState n) :
    (Fin n → ℝ) × EngineState n × List Comp :=
  (calculate_node_degrees s.C s.E, s, [Comp.nodeDegrees])

/-- Counterexample to claim C9: on a concrete fresh instance, two
successive `calculate_fragility` calls run the fragility computation
twice — the value is not computed at most once per instance. -/
theorem claim_C9_counterexample :
    ¬ (((calculate_fragility_m (mkEngine cOne eOne)).2.2 ++
        (calculate_fragility_m
          (calculate_fragility_m (mkEngine cOne eOne)).2.1).2.2).count
          Comp.fragility ≤ 1) := by
  have h : (calculate_fragility_m (mkEngine cOne eOne)).2.2 ++
      (calculate_fragility_m
        (calculate_fragility_m (mkEngine cOne eOne)).2.1).2.2
      = [Comp.fragility, Comp.fragility] := rfl
  rw [h]
  decide

/-- Claim C9 (amended): the score `S`, the gradient (risk increment) and
the eigenvector centrality are memoized — a call that finds its cache
populated returns the cached value, leaves the state unchanged and runs
no compute body, and any call populates its cache — while fragility and
node degrees have no cache and rerun their computation on every call,
returning equal values since the inputs are immutable. -/
theorem claim_C9_amended :
    (∀ (m : ℕ) (s : EngineState m) (v : ℝ),
      S_prop { s with s_score := some v }
        = (v, { s with s_score := some v }, [])) ∧
    (∀ (m : ℕ) (s : EngineState m),
      (S_prop s).2.1.s_score = some (S_prop s).1) ∧
    (∀ (m : ℕ) (s : EngineState m),
      S_prop (S_prop s).2.1 = ((S_prop s).1, (S_prop s).2.1, [])) ∧
    (∀ (m : ℕ) (s : EngineState m) (g : Fin m → ℝ),
      get_gradient_m { s with gradient_s := some g }
        = (g, { s with gradient_s := some g }, [])) ∧
    (∀ (m : ℕ) (s : EngineState m),
      (get_gradient_m s).2.1.gradient_s = some (get_gradient_m s).1) ∧
    (∀ (m : ℕ) (s : EngineState m),
      get_gradient_m (get_gradient_m s).2.1
        = ((get_gradient_m s).1, (get_gradient_m s).2.1, [])) ∧
    (∀ (m : ℕ) (s : EngineState m) (v : Fin m → ℝ),
      calculate_centrality_m { s with centrality := some v }
        = Except.ok (v, { s with centrality := some v }, [])) ∧
    (∀ (m : ℕ) (s : EngineState m),
      calculate_centrality_m { s with centrality := none }
        = Except.map
            (fun v =>
              (v, { s with centrality := some v }, [Comp.centrality]))
            (NetworkUtils.calculate_eigenvector_centrality s.E)) ∧
    (∀ (m : ℕ) (s : EngineState m),
      calculate_fragility_m s
        = (calculate_fragility s.C s.E, s, [Comp.fragility])) ∧
    (∀ (m : ℕ) (s : EngineState m),
      calculate_node_degrees_m s
        = (calculate_node_degrees s.C s.E, s, [Comp.nodeDegrees])) := by
  refine ⟨fun m s v => rfl, fun m s => ?_, fun m s => ?_, fun m s g => rfl,
    fun m s => ?_, fun m s => ?_, fun m s v => rfl, fun m s => ?_,
    fun m s => rfl, fun m s => rfl⟩
  · cases hs : s.s_score <;> simp [S_prop, hs]
  · cases hs : s.s_score <;> simp [S_prop, hs]
  · cases hg : s.gradient_s <;> simp [get_gradient_m, hg]
  · cases hg : s.gradient_s <;> simp [get_gradient_m, hg]
  · cases hc : NetworkUtils.calculate_eigenvector_centrality s.E <;>
      simp [calculate_centrality_m, hc, Except.map]

/-- Witness for C9 (amended) at a concrete instance: an uncached
fragility call on `mkEngine cOne eOne` runs the fragility computation
and leaves the state unchanged. -/
theorem claim_C9_witness :
    calculate_fragility_m (mkEngine cOne eOne)
      = (calculate_fragility cOne eOne, mkEngine cOne eOne,
          [Comp.fragility]) :=
  claim_C9_amended.2.2.2.2.2.2.2.2.1 1 (mkEngine cOne eOne)

/-- Claim C10: fragility and node degrees do not depend on the
compromise vector — two engine instances with the same adjacency matrix
and arbitrary (matching-length) compromise vectors agree on both,
whether called as plain formulas or on fresh engine instances. -/
theorem claim_C10_fragility_degrees_independent_of_C {n : ℕ}
    (Ca Cb : Fin n → ℝ) (E : Matrix (Fin n) (Fin n) ℝ) :
    calculate_fragility Ca E = calculate_fragility Cb E ∧
    calculate_node_degrees Ca E = calculate_node_degrees Cb E ∧
    (calculate_fragility_m (mkEngine Ca E)).1
      = (calculate_fragility_m (mkEngine Cb E)).1 ∧
    (calculate_node_degrees_m (mkEngine Ca E)).1
      = (calculate_node_degrees_m (mkEngine Cb E)).1 :=
  ⟨rfl, rfl, rfl, rfl⟩

/-- Witness for C10 at concrete distinct compromise vectors over the
same network. -/
theorem claim_C10_witness :
    calculate_fragility cOne eOne = calculate_fragility cZero eOne ∧
    calculate_node_degrees cOne eOne = calculate_node_degrees cZero eOne ∧
    (calculate_fragility_m (mkEngine cOne eOne)).1
      = (calculate_fragility_m (mkEngine cZero eOne)).1 ∧
    (calculate_node_degrees_m (mkEngine cOne eOne)).1
      = (calculate_node_degrees_m (mkEngine cZero eOne)).1 :=
  claim_C10_fragility_degrees_independent_of_C cOne cZero eOne

end SystemicRiskCalculator
